import Mathlib

/-!
Verification of the `TextSummarization` aggregator
(`src/aggregation/text_summarization.py` of crowd-kit).

The Python class is embedded shallowly:

* The tokenizer/model pipeline of `_generate_output`
  (`tokenizer.encode` → `model.generate(num_beams)` → `tokenizer.decode`)
  is abstracted into a single function `oracle : String → Nat → String`
  taking the concatenated input text and `num_beams`.
* `np.random.choice(M, size=k, replace=False)` is modelled by an explicit
  parameter `choice : List Nat`; the predicate `ValidChoice M k choice`
  states exactly what numpy guarantees about a successful draw (length `k`,
  pairwise-distinct indices, all below the population size `M`).  When
  `k > M`, numpy raises `ValueError` before producing anything; the
  embedding returns `AggError.sampleSizeError` in that case without
  consulting `choice`.  When `size=None` (`n_permutations is None`), numpy
  returns a single scalar, and the subsequent
  `[permutations[i] for i in permutations_idx]` raises `TypeError`
  (a numpy scalar is not iterable); the embedding returns
  `AggError.typeError`.
* `itertools.permutations` is modelled by `Itertools.permutations`,
  which mirrors itertools' enumeration: pick each index of the input in
  order as the head, recurse on the remainder.  It enumerates all
  `N!` position-permutations, so duplicated input texts yield repeated
  tuples, exactly as in Python.
* `pd.Series.mode()` returns the *Series* of all modal values sorted in
  ascending order; `seriesMode` reproduces that (lexicographic code-point
  order, as Python string comparison).  Note the Python method
  `_aggregate_one` is annotated `-> str` yet returns this Series on the
  plurality path.
* A delegated aggregator (`permutation_aggregator.fit_predict`) is a
  function from (task, text) records to a task → text mapping, both as
  association lists; the source indexes the returned mapping at the
  synthetic task key `''`, which raises `KeyError` when absent
  (`AggError.keyError`).
* `pandas.groupby('task')` sorts the group keys; the embedding keeps the
  keys in first-occurrence order instead.  Every claim below treats the
  result as a mapping, so the key order is immaterial; within each group
  the rows keep their input order, which the embedding preserves.
-/

/-- A Python value returned by `_aggregate_one`: the function is annotated
`-> str` but the plurality-vote path returns a `pd.Series`. -/
inductive PyVal where
  | str : String → PyVal
  | series : List String → PyVal
deriving DecidableEq

/-- Python exceptions that the aggregation code can raise, named after the
concrete situations in `_aggregate_one`:
`sampleSizeError` is numpy's `ValueError` for `replace=False` draws larger
than the population (the spec's `SampleSizeError`); `typeError` is the
`TypeError` from iterating the scalar that `np.random.choice(..., size=None)`
returns; `keyError` is pandas' `KeyError` when the delegate's result lacks
the synthetic key `''`. -/
inductive AggError where
  | sampleSizeError
  | typeError
  | keyError
deriving DecidableEq

namespace Itertools

/-- Fuel-indexed core of the `itertools.permutations` model: with
`l.length ≤ fuel` it lists all position-permutations of `l`, choosing each
index in order as the head and recursing on the list with that index
removed.  Structural recursion on the fuel keeps it kernel-computable. -/
def itPerms : Nat → List String → List (List String)
  | _, [] => [[]]
  | 0, _ :: _ => []
  | fuel + 1, a :: l =>
    (List.range (a :: l).length).flatMap fun i =>
      (itPerms fuel ((a :: l).eraseIdx i)).map fun p => (a :: l).getD i "" :: p

/-- Model of `itertools.permutations(outputs)` (as a list of lists): all
`N!` position-permutations; duplicated inputs yield repeated tuples. -/
def permutations (outputs : List String) : List (List String) :=
  itPerms outputs.length outputs

end Itertools

/-- What numpy guarantees about a successful
`np.random.choice(population, size=k, replace=False)` draw: `k` indices,
pairwise distinct, each below `population`. -/
def ValidChoice (population k : Nat) (choice : List Nat) : Prop :=
  choice.length = k ∧ choice.Nodup ∧ ∀ i ∈ choice, i < population

instance (population k : Nat) (choice : List Nat) :
    Decidable (ValidChoice population k choice) := by
  unfold ValidChoice; infer_instance

/-- Lexicographic (code-point) order on strings as Python compares them,
on the underlying character lists. -/
def charListLt : List Char → List Char → Bool
  | [], [] => false
  | [], _ :: _ => true
  | _ :: _, [] => false
  | a :: as, b :: bs =>
    if a.toNat < b.toNat then true
    else if b.toNat < a.toNat then false
    else charListLt as bs

/-- Insert into an ascending list (ascending insertion sort step). -/
def insertSorted (s : String) : List String → List String
  | [] => [s]
  | t :: ts => if charListLt t.data s.data then t :: insertSorted s ts else s :: t :: ts

/-- Ascending insertion sort on strings. -/
def sortStrings : List String → List String
  | [] => []
  | s :: ss => insertSorted s (sortStrings ss)

/-- Model of `pd.Series.mode()` on a series of strings: all values of
maximal multiplicity, sorted in ascending order. -/
def seriesMode (xs : List String) : List String :=
  let m := (xs.map fun v => xs.count v).foldr max 0
  sortStrings (xs.dedup.filter fun v => xs.count v = m)

/-- The `TextSummarization` aggregator's configuration
(the attrs fields of the Python class).  `tokenizer` and `model` are
abstracted into `oracle` (see the module docstring); a delegated
aggregator is its `fit_predict` on (task, text) records. -/
structure TextSummarization where
  oracle : String → Nat → String
  concat_token : String := " | "
  num_beams : Nat := 16
  use_permutations : Bool := false
  n_permutations : Option Nat := none
  permutation_aggregator : Option (List (String × String) → List (String × String)) := none
  silent : Bool := true
  device : String := "cpu"

/-- The concatenated model input built inside `_generate_output`:
`self.concat_token.join(permutation)`. -/
def generate_input (agg : TextSummarization) (permutation : List String) : String :=
  String.intercalate agg.concat_token permutation

/-- `_generate_output`: join the texts with `concat_token` and run the
oracle (tokenizer → model.generate(num_beams) → decode) on the result. -/
def generate_output (agg : TextSummarization) (permutation : List String) : String :=
  agg.oracle (generate_input agg permutation) agg.num_beams

/-- The permutation-sampling block of `_aggregate_one`
(the spec's Permutation Sampler):
`permutations = list(itertools.permutations(outputs))`;
`permutations_idx = np.random.choice(len(permutations), size=self.n_permutations, replace=False)`;
`permutations = [permutations[i] for i in permutations_idx]`.
`size=None` makes the comprehension raise `TypeError`; a size larger than
the population makes `np.random.choice` raise `ValueError`
(`sampleSizeError`). -/
def samplePermutations (n_permutations : Option Nat) (choice : List Nat)
    (outputs : List String) : Except AggError (List (List String)) :=
  match n_permutations with
  | none => Except.error AggError.typeError
  | some k =>
    let perms := Itertools.permutations outputs
    if perms.length < k then Except.error AggError.sampleSizeError
    else Except.ok (choice.map fun i => perms.getD i [])

/-- The candidate-reduction block of `_aggregate_one`
(the spec's Candidate Reducer): build the synthetic single-task frame
`{'task': [''] * n, 'text': generated_outputs}`; with a delegate, return
`delegate.fit_predict(data)['']`; otherwise return `data.text.mode()`
(a Series, despite the `-> str` annotation). -/
def reduceCandidates (agg : TextSummarization) (generated_outputs : List String) :
    Except AggError PyVal :=
  match agg.permutation_aggregator with
  | some delegate =>
    let data := generated_outputs.map fun t => ("", t)
    match (delegate data).lookup "" with
    | some t => Except.ok (PyVal.str t)
    | none => Except.error AggError.keyError
  | none => Except.ok (PyVal.series (seriesMode generated_outputs))

/-- `_aggregate_one`, instrumented with the trace of oracle inputs (second
component): without permutations, one oracle call on the texts in input
order; with permutations, sample orderings, generate one candidate per
sampled ordering, then reduce. -/
def aggregate_one (agg : TextSummarization) (choice : List Nat) (outputs : List String) :
    Except AggError PyVal × List String :=
  if agg.use_permutations = false then
    (Except.ok (PyVal.str (generate_output agg outputs)), [generate_input agg outputs])
  else
    match samplePermutations agg.n_permutations choice outputs with
    | Except.error e => (Except.error e, [])
    | Except.ok sampled =>
      (reduceCandidates agg (sampled.map (generate_output agg)),
        sampled.map (generate_input agg))

/-- One record of the input frame `data[['task', 'performer', 'text']]`. -/
structure Record where
  task : String
  performer : String
  text : String
deriving DecidableEq

/-- The distinct task keys of `data.groupby('task')`, in first-occurrence
order (pandas sorts them; the claims only use the result as a mapping). -/
def tasksOf (records : List Record) : List String :=
  (records.map Record.task).dedup

/-- `list(df['text'])` for one task's group: that task's texts in input
order. -/
def groupTexts (records : List Record) (t : String) : List String :=
  (records.filter fun r => r.task = t).map Record.text

/-- The per-task loop of `fit_predict` over a list of task keys, with the
oracle-call trace; the first raised exception aborts the run, as in
Python. -/
def runTasks (agg : TextSummarization) (choices : String → List Nat)
    (records : List Record) :
    List String → Except AggError (List (String × PyVal)) × List String
  | [] => (Except.ok [], [])
  | t :: ts =>
    match aggregate_one agg (choices t) (groupTexts records t) with
    | (Except.error e, calls) => (Except.error e, calls)
    | (Except.ok v, calls) =>
      match runTasks agg choices records ts with
      | (Except.error e, calls2) => (Except.error e, calls ++ calls2)
      | (Except.ok rest, calls2) => (Except.ok ((t, v) :: rest), calls ++ calls2)

/-- `fit_predict`: group the records by task and aggregate each group,
returning the task → result mapping (as an association list) and the
trace of oracle inputs.  `choices` supplies the random draw used for each
task's group when permutations are enabled. -/
def fit_predict (agg : TextSummarization) (choices : String → List Nat)
    (records : List Record) :
    Except AggError (List (String × PyVal)) × List String :=
  runTasks agg choices records (tasksOf records)

/-- Identity stub oracle: returns the concatenated input unchanged. -/
def stubOracle : String → Nat → String := fun input _ => input

/-- Concrete configuration with the stub oracle, separator `|`, and
permutations disabled. -/
def aggNoPerm : TextSummarization :=
  { oracle := stubOracle, concat_token := "|" }

/-- Permutation mode enabled with `n_permutations=5` and the stub oracle. -/
def aggPerm5 : TextSummarization :=
  { oracle := stubOracle, concat_token := "|", use_permutations := true,
    n_permutations := some 5 }

/-- Permutation mode enabled with `n_permutations=2` and the stub oracle. -/
def aggPerm2 : TextSummarization :=
  { oracle := stubOracle, concat_token := "|", use_permutations := true,
    n_permutations := some 2 }

/-- Permutation mode enabled with `n_permutations=3`, no delegate. -/
def aggPerm3 : TextSummarization :=
  { oracle := stubOracle, concat_token := "|", use_permutations := true,
    n_permutations := some 3 }

/-- Permutation mode enabled while `n_permutations` keeps its default
`None`. -/
def aggPermNone : TextSummarization :=
  { oracle := stubOracle, concat_token := "|", use_permutations := true }

/-- Stub delegated aggregator that always answers with its first input
text, under the synthetic task key. -/
def firstTextDelegate : List (String × String) → List (String × String) :=
  fun records => [("", (records.map Prod.snd).headD "")]

/-- Permutation mode with the stub delegate configured. -/
def aggDelegateStub : TextSummarization :=
  { oracle := stubOracle, concat_token := "|", use_permutations := true,
    n_permutations := some 3, permutation_aggregator := some firstTextDelegate }

/-- The end-to-end example input: task `T1` with texts red and blue, task
`T2` with text green. -/
def recordsT1T2 : List Record :=
  [⟨"T1", "w1", "red"⟩, ⟨"T1", "w2", "blue"⟩, ⟨"T2", "w3", "green"⟩]

/-- Erasing a valid index of a cons shortens it to the tail's length. -/
theorem eraseIdx_cons_length {α : Type _} (a : α) (l : List α) (i : Nat)
    (h : i < (a :: l).length) : ((a :: l).eraseIdx i).length = l.length := by
  have h1 := List.length_eraseIdx_add_one (l := a :: l) h
  simp only [List.length_cons] at h1 ⊢
  omega

/-- Re-consing an element in front of the list with its index erased is a
permutation of the original list. -/
theorem getElem_cons_eraseIdx_perm {α : Type _} (l : List α) (i : Nat) (h : i < l.length) :
    List.Perm (l[i] :: l.eraseIdx i) l := by
  have h1 : l.take i ++ l[i] :: l.drop (i + 1) = l := by
    rw [List.getElem_cons_drop l i h, List.take_append_drop]
  have h2 : List.Perm (l[i] :: (l.take i ++ l.drop (i + 1)))
      (l.take i ++ l[i] :: l.drop (i + 1)) := List.perm_middle.symm
  rw [List.eraseIdx_eq_take_drop_succ]
  rw [h1] at h2
  exact h2

/-- With enough fuel, `itPerms` lists `N!` position-permutations. -/
theorem Itertools.itPerms_length : ∀ (fuel : Nat) (l : List String), l.length ≤ fuel →
    (Itertools.itPerms fuel l).length = Nat.factorial l.length := by
  intro fuel
  induction fuel with
  | zero =>
    intro l hl
    cases l with
    | nil => rfl
    | cons a l' => simp at hl
  | succ fuel ih =>
    intro l hl
    cases l with
    | nil => rfl
    | cons a l' =>
      simp only [List.length_cons] at hl
      show ((List.range (a :: l').length).flatMap fun i =>
          (Itertools.itPerms fuel ((a :: l').eraseIdx i)).map
            fun p => (a :: l').getD i "" :: p).length = _
      rw [List.length_flatMap]
      have hconst : ∀ i ∈ List.range (a :: l').length,
          ((Itertools.itPerms fuel ((a :: l').eraseIdx i)).map
            fun p => (a :: l').getD i "" :: p).length = Nat.factorial l'.length := by
        intro i hi
        have hi' : i < (a :: l').length := List.mem_range.mp hi
        have hlen : ((a :: l').eraseIdx i).length = l'.length := eraseIdx_cons_length a l' i hi'
        rw [List.length_map, ih _ (by omega : ((a :: l').eraseIdx i).length ≤ fuel), hlen]
      rw [Function.comp_def, List.map_congr_left hconst, List.map_const', List.length_range,
        List.sum_replicate, smul_eq_mul, List.length_cons, Nat.factorial_succ]

/-- With enough fuel, every member of `itPerms` is a permutation of the
input list. -/
theorem Itertools.itPerms_perm : ∀ (fuel : Nat) (l p : List String), l.length ≤ fuel →
    p ∈ Itertools.itPerms fuel l → List.Perm p l := by
  intro fuel
  induction fuel with
  | zero =>
    intro l p hl hp
    cases l with
    | nil =>
      simp only [Itertools.itPerms, List.mem_singleton] at hp
      subst hp; exact List.Perm.refl _
    | cons a l' => simp at hl
  | succ fuel ih =>
    intro l p hl hp
    cases l with
    | nil =>
      simp only [Itertools.itPerms, List.mem_singleton] at hp
      subst hp; exact List.Perm.refl _
    | cons a l' =>
      simp only [List.length_cons] at hl
      simp only [Itertools.itPerms, List.mem_flatMap, List.mem_map, List.mem_range] at hp
      obtain ⟨i, hi, q, hq, hpq⟩ := hp
      have hlen : ((a :: l').eraseIdx i).length = l'.length := eraseIdx_cons_length a l' i hi
      have hq' : List.Perm q ((a :: l').eraseIdx i) :=
        ih _ _ (by omega : ((a :: l').eraseIdx i).length ≤ fuel) hq
      subst hpq
      rw [List.getD_eq_getElem _ _ hi]
      exact (hq'.cons _).trans (getElem_cons_eraseIdx_perm _ i hi)

/-- With enough fuel and pairwise-distinct inputs, `itPerms` has no
repeated entries. -/
theorem Itertools.itPerms_nodup : ∀ (fuel : Nat) (l : List String), l.length ≤ fuel →
    l.Nodup → (Itertools.itPerms fuel l).Nodup := by
  intro fuel
  induction fuel with
  | zero =>
    intro l hl hnd
    cases l with
    | nil => simp [Itertools.itPerms]
    | cons a l' => simp at hl
  | succ fuel ih =>
    intro l hl hnd
    cases l with
    | nil => simp [Itertools.itPerms]
    | cons a l' =>
      simp only [List.length_cons] at hl
      simp only [Itertools.itPerms]
      rw [List.nodup_flatMap]
      constructor
      · intro i hi
        have hi' : i < (a :: l').length := List.mem_range.mp hi
        have hlen : ((a :: l').eraseIdx i).length = l'.length := eraseIdx_cons_length a l' i hi'
        refine List.Nodup.map ?_ (ih _ (by omega) (hnd.sublist (List.eraseIdx_sublist _ i)))
        intro p q hpq
        simpa using hpq
      · have hpw : (List.range (a :: l').length).Pairwise (· < ·) :=
          List.pairwise_lt_range _
        refine hpw.imp_of_mem ?_
        intro i j hi hj hij x hxi hxj
        simp only [List.mem_map] at hxi hxj
        obtain ⟨p, _, hp⟩ := hxi
        obtain ⟨q, _, hq⟩ := hxj
        have hi' : i < (a :: l').length := List.mem_range.mp hi
        have hj' : j < (a :: l').length := List.mem_range.mp hj
        have hhead : (a :: l').getD i "" = (a :: l').getD j "" := by
          rw [← hq] at hp
          exact (List.cons.injEq _ _ _ _ ▸ hp).1
        rw [List.getD_eq_getElem _ _ hi', List.getD_eq_getElem _ _ hj'] at hhead
        have : i = j := hnd.getElem_inj_iff.mp hhead
        omega

/-- `Itertools.permutations` has `N!` entries, as `itertools.permutations`
does in Python. -/
theorem Itertools.permutations_length (l : List String) :
    (Itertools.permutations l).length = Nat.factorial l.length :=
  Itertools.itPerms_length l.length l le_rfl

/-- Every entry of `Itertools.permutations l` is a permutation of `l`. -/
theorem Itertools.permutations_perm {l p : List String}
    (h : p ∈ Itertools.permutations l) : List.Perm p l :=
  Itertools.itPerms_perm l.length l p le_rfl h

/-- On pairwise-distinct texts the listed permutations are pairwise
distinct. -/
theorem Itertools.permutations_nodup {l : List String} (h : l.Nodup) :
    (Itertools.permutations l).Nodup :=
  Itertools.itPerms_nodup l.length l le_rfl h

/-- Sampling helper: a valid `np.random.choice` draw of `k` distinct
indices into a duplicate-free population selects pairwise-distinct
elements. -/
theorem map_getD_nodup (perms : List (List String)) (choice : List Nat)
    (hndc : choice.Nodup) (hlt : ∀ i ∈ choice, i < perms.length)
    (hperms : perms.Nodup) :
    (choice.map fun i => perms.getD i []).Nodup := by
  refine hndc.map_on ?_
  intro i hi j hj hij
  have hi' := hlt i hi
  have hj' := hlt j hj
  rw [List.getD_eq_getElem _ _ hi', List.getD_eq_getElem _ _ hj'] at hij
  exact hperms.getElem_inj_iff.mp hij

/-- C2 (counterexample): with the duplicated texts `["a", "a"]` and
`K = 2 ≤ 2! = N!`, a valid draw of two distinct indices still yields two
equal orderings, so the sampled orderings are not pairwise distinct. -/
theorem C2_duplicate_texts_counterexample :
    ValidChoice (Itertools.permutations ["a", "a"]).length 2 [0, 1] ∧
    2 ≤ Nat.factorial (["a", "a"] : List String).length ∧
    samplePermutations (some 2) [0, 1] ["a", "a"] =
      Except.ok [["a", "a"], ["a", "a"]] ∧
    ¬ ([["a", "a"], ["a", "a"]] : List (List String)).Nodup :=
  ⟨by decide, by decide, rfl, by decide⟩

/-- C2 (amended): for a task group whose `N` texts are pairwise distinct
and permutation sampling enabled with `K ≤ N!`, any valid
`np.random.choice` draw makes the sampler return exactly
`min(K, N!) = K` pairwise-distinct orderings, each a permutation of the
group's texts.  (With duplicated texts the draw is still over `N!`
position-permutations and sampled orderings can coincide as sequences,
see the counterexample.) -/
theorem C2_sampler_distinct_orderings (outputs : List String) (k : Nat)
    (choice : List Nat) (hnd : outputs.Nodup)
    (hk : k ≤ Nat.factorial outputs.length)
    (hc : ValidChoice (Itertools.permutations outputs).length k choice) :
    ∃ sampled, samplePermutations (some k) choice outputs = Except.ok sampled ∧
      sampled.length = min k (Nat.factorial outputs.length) ∧ sampled.Nodup ∧
      ∀ o ∈ sampled, List.Perm o outputs := by
  obtain ⟨hlen, hndc, hlt⟩ := hc
  have hplen : (Itertools.permutations outputs).length = Nat.factorial outputs.length :=
    Itertools.permutations_length outputs
  refine ⟨choice.map fun i => (Itertools.permutations outputs).getD i [], ?_, ?_, ?_, ?_⟩
  · simp only [samplePermutations]
    rw [if_neg (by omega)]
  · rw [List.length_map, hlen, Nat.min_eq_left hk]
  · exact map_getD_nodup _ _ hndc hlt (Itertools.permutations_nodup hnd)
  · intro o ho
    simp only [List.mem_map] at ho
    obtain ⟨i, hi, hoi⟩ := ho
    have hi' : i < (Itertools.permutations outputs).length := hlt i hi
    rw [← hoi, List.getD_eq_getElem _ _ hi']
    exact Itertools.permutations_perm (List.getElem_mem hi')

/-- C2 (witness). -/
theorem C2_sampler_distinct_orderings_witness :
    ∃ sampled, samplePermutations (some 2) [0, 1] ["a", "b"] = Except.ok sampled ∧
      sampled.length = min 2 (Nat.factorial (["a", "b"] : List String).length) ∧
      sampled.Nodup ∧ ∀ o ∈ sampled, List.Perm o ["a", "b"] :=
  C2_sampler_distinct_orderings ["a", "b"] 2 [0, 1] (by decide) (by decide) (by decide)

/-- C3 (counterexample): a task group with the single text `"a"`
(`N = 1`) and requested count `K = 2 ≥ 1` makes the aggregation error
(numpy cannot draw 2 distinct indices from a population of `1! = 1`),
not produce one ordering. -/
theorem C3_degenerate_count_two_errors :
    aggregate_one aggPerm2 [] ["a"] = (Except.error AggError.sampleSizeError, []) := rfl

/-- C3 (amended): for a task group with `N ≤ 1` texts and permutation
sampling enabled, count `K = 1` yields exactly the one existing ordering
and no error, while any count `K ≥ 2` errors out, consistently with the
`count > N!` rule. -/
theorem C3_degenerate_single_ordering (outputs : List String) (choice : List Nat)
    (h1 : outputs.length ≤ 1)
    (hc : ValidChoice (Itertools.permutations outputs).length 1 choice) :
    samplePermutations (some 1) choice outputs = Except.ok [outputs] ∧
    ∀ k, 2 ≤ k → ∀ c, samplePermutations (some k) c outputs =
      Except.error AggError.sampleSizeError := by
  have hperms : Itertools.permutations outputs = [outputs] := by
    cases outputs with
    | nil => rfl
    | cons a t =>
      cases t with
      | nil => rfl
      | cons b t' => simp only [List.length_cons] at h1; omega
  obtain ⟨hlen, _, hlt⟩ := hc
  have hchoice : choice = [0] := by
    cases choice with
    | nil => simp at hlen
    | cons i c' =>
      cases c' with
      | nil =>
        have hi : i < (Itertools.permutations outputs).length :=
          hlt i (List.mem_singleton_self i)
        rw [hperms] at hi
        simp only [List.length_singleton] at hi
        have hi0 : i = 0 := by omega
        rw [hi0]
      | cons j c'' => simp at hlen
  constructor
  · simp only [samplePermutations, hchoice, hperms]
    rfl
  · intro k hk c
    simp only [samplePermutations, hperms]
    rw [if_pos (by simp only [List.length_singleton]; omega)]

/-- C3 (witness). -/
theorem C3_degenerate_single_ordering_witness :
    (samplePermutations (some 1) [0] ["a"] = Except.ok [["a"]] ∧
      ∀ k, 2 ≤ k → ∀ c, samplePermutations (some k) c ["a"] =
        Except.error AggError.sampleSizeError) :=
  C3_degenerate_single_ordering ["a"] [0] (by decide) (by decide)

/-- C4 (code bug): with permutation mode enabled and `n_permutations`
left as `None`, the class docstring promises a single permutation in
input order, but `np.random.choice(len(perms), size=None, replace=False)`
returns a scalar and the comprehension `[permutations[i] for i in
permutations_idx]` raises `TypeError` for every task group. -/
theorem C4_none_count_raises_type_error (choice : List Nat) (outputs : List String) :
    aggregate_one aggPermNone choice outputs = (Except.error AggError.typeError, []) := rfl

/-- C5: whenever permutation mode is enabled with a requested count
strictly greater than `N!`, the aggregation of a task group raises the
sample-size error (numpy's `ValueError` for a `replace=False` draw larger
than the population). -/
theorem C5_count_exceeding_total_errors (agg : TextSummarization) (k : Nat)
    (choice : List Nat) (outputs : List String)
    (hperm : agg.use_permutations = true)
    (hn : agg.n_permutations = some k)
    (hk : Nat.factorial outputs.length < k) :
    aggregate_one agg choice outputs = (Except.error AggError.sampleSizeError, []) := by
  have hlt : (Itertools.permutations outputs).length < k := by
    rw [Itertools.permutations_length]; exact hk
  unfold aggregate_one
  rw [if_neg (by rw [hperm]; simp), hn]
  simp only [samplePermutations]
  rw [if_pos hlt]

/-- C5 (witness): two texts, requested count 5 > 2!. -/
theorem C5_count_exceeding_total_errors_witness :
    aggregate_one aggPerm5 [] ["a", "b"] = (Except.error AggError.sampleSizeError, []) :=
  C5_count_exceeding_total_errors aggPerm5 5 [] ["a", "b"] rfl rfl (by decide)

/-- C1 (code bug): on the plurality-vote path (several candidates, no
delegate) `_aggregate_one` returns `data.text.mode()`, which is a pandas
Series, not the single most frequent string its `-> str` annotation and
the class docstring promise; for the tied candidates `["a", "b"]` the
Series even holds both tied values in sorted order rather than the
first-occurring one. -/
theorem C1_plurality_mode_returns_series :
    reduceCandidates aggPerm3 ["a", "b", "a"] = Except.ok (PyVal.series ["a"]) ∧
    reduceCandidates aggPerm3 ["a", "b"] = Except.ok (PyVal.series ["a", "b"]) ∧
    ∀ s : String, reduceCandidates aggPerm3 ["a", "b", "a"] ≠ Except.ok (PyVal.str s) := by
  refine ⟨rfl, rfl, ?_⟩
  intro s h
  rw [show reduceCandidates aggPerm3 ["a", "b", "a"] = Except.ok (PyVal.series ["a"])
    from rfl] at h
  exact PyVal.noConfusion (Except.ok.inj h)

/-- C7: with a delegated aggregator configured, the reducer wraps every
candidate as a record under the one synthetic task key `""`, invokes the
delegate's `fit_predict` on those records, and returns the text the
delegate produced for that key. -/
theorem C7_delegate_reduction (agg : TextSummarization)
    (delegate : List (String × String) → List (String × String))
    (candidates : List String) (t : String)
    (hd : agg.permutation_aggregator = some delegate)
    (h : (delegate (candidates.map fun c => ("", c))).lookup "" = some t) :
    reduceCandidates agg candidates = Except.ok (PyVal.str t) := by
  simp only [reduceCandidates, hd]
  rw [h]

/-- C7 (witness): candidates x, y, z through the stub first-text delegate
reduce to x. -/
theorem C7_delegate_reduction_witness :
    reduceCandidates aggDelegateStub ["x", "y", "z"] = Except.ok (PyVal.str "x") :=
  C7_delegate_reduction aggDelegateStub firstTextDelegate ["x", "y", "z"] "x" rfl rfl

/-- With permutation mode disabled the per-task loop succeeds, produces
one entry per task key, and calls the oracle exactly once per task on the
group's texts joined in input order. -/
theorem runTasks_no_perm (agg : TextSummarization) (choices : String → List Nat)
    (records : List Record) (hup : agg.use_permutations = false) :
    ∀ ts : List String,
      runTasks agg choices records ts =
        (Except.ok (ts.map fun t =>
            (t, PyVal.str (generate_output agg (groupTexts records t)))),
          ts.map fun t => generate_input agg (groupTexts records t)) := by
  intro ts
  induction ts with
  | nil => rfl
  | cons t ts ih =>
    have h1 : aggregate_one agg (choices t) (groupTexts records t) =
        (Except.ok (PyVal.str (generate_output agg (groupTexts records t))),
          [generate_input agg (groupTexts records t)]) := by
      unfold aggregate_one
      rw [if_pos hup]
    simp only [runTasks, h1, ih, List.map_cons, List.singleton_append]

/-- A successful run's result holds exactly the given task keys, in
order. -/
theorem runTasks_ok_keys (agg : TextSummarization) (choices : String → List Nat)
    (records : List Record) :
    ∀ (ts : List String) (l : List (String × PyVal)) (calls : List String),
      runTasks agg choices records ts = (Except.ok l, calls) →
      l.map Prod.fst = ts := by
  intro ts
  induction ts with
  | nil =>
    intro l calls h
    simp only [runTasks, Prod.mk.injEq] at h
    obtain ⟨h1, _⟩ := h
    rw [← Except.ok.inj h1]
    rfl
  | cons t ts ih =>
    intro l calls h
    rcases ha : aggregate_one agg (choices t) (groupTexts records t) with ⟨e | v, cs⟩
    · simp only [runTasks, ha, Prod.mk.injEq] at h
      exact absurd h.1 (by simp)
    · rcases hr : runTasks agg choices records ts with ⟨rest | l', cs2⟩
      · simp only [runTasks, ha, hr, Prod.mk.injEq] at h
        exact absurd h.1 (by simp)
      · simp only [runTasks, ha, hr, Prod.mk.injEq] at h
        obtain ⟨h1, _⟩ := h
        rw [← Except.ok.inj h1, List.map_cons, ih l' cs2 hr]

/-- C6: with permutation mode disabled, `fit_predict` succeeds, calls the
oracle exactly once per distinct task, passing the task's texts joined by
the configured separator in input order, and maps each task to the
oracle's answer; concretely, with the identity stub oracle and separator
`|`, tasks T1 = [red, blue] and T2 = [green] give
{T1 ↦ red|blue, T2 ↦ green}. -/
theorem C6_disabled_one_oracle_call_per_task (oracle : String → Nat → String)
    (sep : String) (nb : Nat) (np : Option Nat)
    (pa : Option (List (String × String) → List (String × String)))
    (sil : Bool) (dev : String) (choices : String → List Nat) (records : List Record) :
    fit_predict ⟨oracle, sep, nb, false, np, pa, sil, dev⟩ choices records =
      (Except.ok ((tasksOf records).map fun t =>
          (t, PyVal.str (oracle (String.intercalate sep (groupTexts records t)) nb))),
        (tasksOf records).map fun t => String.intercalate sep (groupTexts records t)) ∧
    fit_predict aggNoPerm (fun _ => []) recordsT1T2 =
      (Except.ok [("T1", PyVal.str "red|blue"), ("T2", PyVal.str "green")],
        ["red|blue", "green"]) :=
  ⟨runTasks_no_perm _ choices records rfl (tasksOf records), rfl⟩

/-- C8: whenever `fit_predict` returns a result, its keys are exactly the
distinct task ids of the input, one entry each and nothing else. -/
theorem C8_result_keys_are_distinct_tasks (agg : TextSummarization)
    (choices : String → List Nat) (records : List Record)
    (l : List (String × PyVal)) (calls : List String)
    (h : fit_predict agg choices records = (Except.ok l, calls)) :
    l.map Prod.fst = (records.map Record.task).dedup ∧
    (l.map Prod.fst).Nodup ∧
    ∀ t, t ∈ l.map Prod.fst ↔ t ∈ records.map Record.task := by
  have hk : l.map Prod.fst = tasksOf records :=
    runTasks_ok_keys agg choices records (tasksOf records) l calls h
  refine ⟨hk, ?_, ?_⟩
  · rw [hk]; exact List.nodup_dedup _
  · intro t; rw [hk]; exact List.mem_dedup

/-- C8 (witness). -/
theorem C8_result_keys_are_distinct_tasks_witness :
    ([("T1", PyVal.str "red|blue"), ("T2", PyVal.str "green")].map Prod.fst
        = (recordsT1T2.map Record.task).dedup) ∧
    ([("T1", PyVal.str "red|blue"), ("T2", PyVal.str "green")].map Prod.fst).Nodup ∧
    ∀ t, t ∈ [("T1", PyVal.str "red|blue"), ("T2", PyVal.str "green")].map Prod.fst ↔
      t ∈ recordsT1T2.map Record.task :=
  C8_result_keys_are_distinct_tasks aggNoPerm (fun _ => []) recordsT1T2
    [("T1", PyVal.str "red|blue"), ("T2", PyVal.str "green")] ["red|blue", "green"] rfl

/-- C9 (counterexample): aggregating an empty task group with permutation
mode disabled does not fail at all: it returns the oracle's output on the
empty concatenation (the empty string under the identity stub oracle),
refuting "fails with EmptyGroupError". -/
theorem C9_empty_group_no_error_counterexample :
    aggregate_one aggNoPerm [] [] = (Except.ok (PyVal.str ""), [""]) := rfl

/-- C9 (amended): task groups arising in `fit_predict` always hold at
least one text (`groupby` never yields an empty group), and a direct call
on an empty group does not raise but returns the oracle's output on the
empty concatenation. -/
theorem C9_groups_nonempty_and_empty_call_behavior (records : List Record)
    (t : String) (ht : t ∈ tasksOf records) :
    groupTexts records t ≠ [] ∧
    ∀ agg : TextSummarization, agg.use_permutations = false →
      ∀ c, aggregate_one agg c [] =
        (Except.ok (PyVal.str (agg.oracle "" agg.num_beams)), [""]) := by
  constructor
  · unfold tasksOf at ht
    rw [List.mem_dedup] at ht
    simp only [List.mem_map] at ht
    obtain ⟨r, hr, hrt⟩ := ht
    unfold groupTexts
    intro hcon
    rw [List.map_eq_nil_iff] at hcon
    have hmem : r ∈ records.filter fun r => r.task = t := by
      rw [List.mem_filter]
      exact ⟨hr, by simp [hrt]⟩
    rw [hcon] at hmem
    exact absurd hmem (List.not_mem_nil r)
  · intro agg hup c
    unfold aggregate_one
    rw [if_pos hup]
    rfl

/-- C9 (witness). -/
theorem C9_groups_nonempty_witness :
    groupTexts recordsT1T2 "T1" ≠ [] ∧
    ∀ agg : TextSummarization, agg.use_permutations = false →
      ∀ c, aggregate_one agg c [] =
        (Except.ok (PyVal.str (agg.oracle "" agg.num_beams)), [""]) :=
  C9_groups_nonempty_and_empty_call_behavior recordsT1T2 "T1" (by decide)

/-- C10: with `use_permutations = False` the whole run is insensitive to
`n_permutations`, `permutation_aggregator`, and even the random draws:
two configurations differing only in those produce identical results. -/
theorem C10_disabled_ignores_permutation_config (oracle : String → Nat → String)
    (sep : String) (nb : Nat) (sil : Bool) (dev : String)
    (np1 np2 : Option Nat)
    (pa1 pa2 : Option (List (String × String) → List (String × String)))
    (choices1 choices2 : String → List Nat) (records : List Record) :
    fit_predict ⟨oracle, sep, nb, false, np1, pa1, sil, dev⟩ choices1 records =
    fit_predict ⟨oracle, sep, nb, false, np2, pa2, sil, dev⟩ choices2 records := by
  unfold fit_predict
  rw [runTasks_no_perm _ choices1 records rfl, runTasks_no_perm _ choices2 records rfl]
  rfl
